import Mathlib

/-!
# Somnia Jump — leaderboard service and game simulation engine

Shallow embedding of the two cores of the `somnia-jump` repository:

* the leaderboard API route (`src/app/api/leaderboard/route.ts`), modelled on
  its in-process fallback path (`getDb()` returns `null` when neither
  `REDIS_URL` nor the KV credentials are configured), together with the
  per-entry parse-or-skip loop of the KV read path; scores are JS numbers,
  integer-valued in this application, embedded as `ℤ`; timestamps as `ℕ`;
* the canvas game loop (`src/app/game/page.tsx`): player physics, platform
  collision, world scroll and platform regeneration, embedded over `ℚ`
  (the float constants 0.5, -15, 8 … are exactly representable), with the
  `Math.random()` stream abstracted as a function `ℕ → ℚ` consumed via a
  seed counter carried in the state.
-/

namespace SomniaJump

/-- Source: `interface LeaderboardEntry { address: string; score: number; timestamp: number }`
(route.ts lines 7-11). -/
structure LeaderboardEntry where
  address : String
  score : ℤ
  timestamp : ℕ
deriving DecidableEq, Repr

/-- Source: `const MAX_ENTRIES = 100` (route.ts line 5). -/
def MAX_ENTRIES : ℕ := 100

/-- Models `s.toLowerCase()`: character-wise lowercasing of the address string
(addresses are ASCII hex strings, for which JS `toLowerCase` is exactly
per-character lowercasing). -/
def lowerKey (s : String) : List Char := s.data.map Char.toLower

/-- Descending-score comparison used by `.sort((a, b) => b.score - a.score)`:
`a` sorts before `b` when `b.score ≤ a.score`. -/
def scoreGe (a b : LeaderboardEntry) : Prop := b.score ≤ a.score

instance : DecidableRel scoreGe := fun a b => inferInstanceAs (Decidable (b.score ≤ a.score))

instance : IsTotal LeaderboardEntry scoreGe :=
  ⟨fun a b => le_total b.score a.score⟩

instance : IsTrans LeaderboardEntry scoreGe :=
  ⟨fun _ _ _ h1 h2 => le_trans h2 h1⟩

/-- Models `.sort((a, b) => b.score - a.score)`: stable sort by descending score.
JS `Array.prototype.sort` is stable; `List.insertionSort` with this relation
places each element before later elements of equal score, which is the same
stable descending order. -/
def sortByScoreDesc (l : List LeaderboardEntry) : List LeaderboardEntry :=
  List.insertionSort scoreGe l

/-- Source: `getInMemoryLeaderboard` (route.ts lines 58-62): sort the store by
descending score and return the first 10 entries. -/
def getInMemoryLeaderboard (store : List LeaderboardEntry) : List LeaderboardEntry :=
  (sortByScoreDesc store).take 10

/-- The `findIndex(e => e.address.toLowerCase() === entry.address.toLowerCase())`
lookup of `saveToInMemoryLeaderboard` (route.ts lines 65-67), returning the
first index together with the entry stored there. -/
def findLowerIdx (a : String) : List LeaderboardEntry → Option (ℕ × LeaderboardEntry)
  | [] => none
  | x :: xs =>
    if lowerKey x.address = lowerKey a then some (0, x)
    else (findLowerIdx a xs).map (fun p => (p.1 + 1, p.2))

/-- Source: `saveToInMemoryLeaderboard` (route.ts lines 64-84).  If an entry with the
same lower-cased address exists, replace it in place only when the new score
is strictly greater (returning `true`), else leave the store untouched
(returning `false`).  Otherwise push the entry and, when the store then
exceeds `MAX_ENTRIES`, keep only the `MAX_ENTRIES` highest-scored entries. -/
def saveToInMemoryLeaderboard (store : List LeaderboardEntry) (entry : LeaderboardEntry) :
    Bool × List LeaderboardEntry :=
  match findLowerIdx entry.address store with
  | some (i, x) =>
    if entry.score > x.score then (true, store.set i entry) else (false, store)
  | none =>
    let pushed := store ++ [entry]
    if pushed.length > MAX_ENTRIES then
      (true, (sortByScoreDesc pushed).take MAX_ENTRIES)
    else
      (true, pushed)

/-- Result of the POST handler on its in-memory path: either the 400
`{ error: 'Invalid data' }` response, or the 200 `{ success: true,
newHighScore }` response (route.ts lines 164-166 and 240-248). -/
inductive SubmitResponse where
  | invalidData
  | saved (newHighScore : Bool)
deriving DecidableEq, Repr

/-- Source: `POST` (route.ts lines 159-254) on the in-memory fallback path
(`getDb()` returned `null`).  The request body's `score` field is `none`
when it is not a JS number; `address` is the empty string when missing or
empty (both are falsy, so `!address` holds exactly then).  Returns the
response together with the new store. -/
def postLeaderboard (store : List LeaderboardEntry) (address : String)
    (score : Option ℤ) (now : ℕ) : SubmitResponse × List LeaderboardEntry :=
  match score with
  | none => (.invalidData, store)
  | some sc =>
    if address = "" then (.invalidData, store)
    else
      let r := saveToInMemoryLeaderboard store ⟨address, sc, now⟩
      (.saved r.1, r.2)

/-- A ranked-store member as the GET KV read path sees it (route.ts lines
98-114): the member string either JSON-parses to `{address, timestamp}`
(`some`) or throws (`none`); paired with the numeric score returned
alongside it. -/
structure RawMember where
  address : String
  timestamp : ℕ
deriving DecidableEq, Repr

/-- The per-entry parse loop of the GET KV path (route.ts lines 101-114):
each parse failure is caught and that entry skipped; successes are pushed
in order. -/
def parseKvEntries : List (Option RawMember × ℤ) → List LeaderboardEntry
  | [] => []
  | (none, _) :: rest => parseKvEntries rest
  | (some m, sc) :: rest => ⟨m.address, sc, m.timestamp⟩ :: parseKvEntries rest

/-! ## Game simulation engine (`src/app/game/page.tsx`) -/

namespace Game

/-- Constants (page.tsx lines 32-39). `GRAVITY = 0.5` is exact in binary
floating point, as are all other constants, so `ℚ` models the arithmetic of
the claims' scenarios exactly. -/
def CANVAS_WIDTH : ℚ := 400

def CANVAS_HEIGHT : ℚ := 600

def GRAVITY : ℚ := 1 / 2

def JUMP_VELOCITY : ℚ := -15

def MOVE_SPEED : ℚ := 8

def PLATFORM_WIDTH : ℚ := 70

def PLATFORM_HEIGHT : ℚ := 15

def PLATFORM_COUNT : ℕ := 7

/-- Source: `interface Platform { x, y, width }` (page.tsx lines 8-12). -/
structure Platform where
  x : ℚ
  y : ℚ
  width : ℚ
deriving DecidableEq, Repr

/-- Source: `game.player` (page.tsx line 24). -/
structure Player where
  x : ℚ
  y : ℚ
  vy : ℚ
  width : ℚ
  height : ℚ
deriving DecidableEq, Repr

/-- The `gameState` values of the game page (page.tsx line 17). -/
inductive Phase where
  | start
  | playing
  | gameover
deriving DecidableEq, Repr

/-- The mutable game data: `gameRef.current` together with the `score` React
state and the phase.  `seed` is the position in the abstracted
`Math.random()` stream. -/
structure GameState where
  player : Player
  platforms : List Platform
  keyLeft : Bool
  keyRight : Bool
  maxY : ℚ
  score : ℤ
  phase : Phase
  seed : ℕ

/-- Horizontal movement and screen wrap (page.tsx lines 124-130). -/
def moveStep (s : GameState) : GameState :=
  let p := s.player
  let x1 := if s.keyLeft then p.x - MOVE_SPEED else p.x
  let x2 := if s.keyRight then x1 + MOVE_SPEED else x1
  let x3 := if x2 < -p.width then CANVAS_WIDTH else x2
  let x4 := if x3 > CANVAS_WIDTH then -p.width else x3
  { s with player := { p with x := x4 } }

/-- Gravity integration (page.tsx lines 132-134): `vy += GRAVITY; y += vy`. -/
def physicsStep (s : GameState) : GameState :=
  let p := s.player
  { s with player := { p with vy := p.vy + GRAVITY, y := p.y + (p.vy + GRAVITY) } }

/-- The collision `for` loop body (page.tsx lines 138-149): snap onto the
first platform in collection order satisfying the overlap test, then stop
(`break`). -/
def resolveCollision (p : Player) : List Platform → Player
  | [] => p
  | q :: qs =>
    if p.x + p.width > q.x ∧ p.x < q.x + q.width ∧
        q.y ≤ p.y + p.height ∧ p.y + p.height ≤ q.y + PLATFORM_HEIGHT + p.vy then
      { p with y := q.y - p.height, vy := JUMP_VELOCITY }
    else resolveCollision p qs

/-- Platform collision, guarded by `if (player.vy > 0)` (page.tsx line 137). -/
def collideStep (s : GameState) : GameState :=
  if 0 < s.player.vy then { s with player := resolveCollision s.player s.platforms } else s

/-- Models `platforms.reduce((min, p) => p.y < min.y ? p : min, platforms[0])`
(page.tsx line 167).  On an empty list the JS expression is undefined (the
loop is only ever entered with at least one platform remaining); the model
totalises it with a default. -/
def topPlatform (ps : List Platform) : Platform :=
  ps.foldl (fun m q => if q.y < m.y then q else m) (ps.headD ⟨0, 0, 0⟩)

/-- The `while (game.platforms.length < PLATFORM_COUNT)` regeneration loop
(page.tsx lines 166-173), with explicit fuel: each iteration appends one
platform, so `PLATFORM_COUNT` iterations always suffice from the states the
loop runs on (at most `PLATFORM_COUNT` platforms survive the filter).
Returns the platforms together with the advanced random-stream position. -/
def regenPlatforms (r : ℕ → ℚ) : ℕ → ℕ → List Platform → List Platform × ℕ
  | 0, seed, ps => (ps, seed)
  | fuel + 1, seed, ps =>
    if ps.length < PLATFORM_COUNT then
      let top := topPlatform ps
      regenPlatforms r fuel (seed + 1)
        (ps ++ [⟨r seed * (CANVAS_WIDTH - PLATFORM_WIDTH),
                 top.y - CANVAS_HEIGHT / (PLATFORM_COUNT : ℚ), PLATFORM_WIDTH⟩])
    else (ps, seed)

/-- World scroll (page.tsx lines 153-178): when the player is above the
vertical midpoint, clamp to the midpoint, accumulate the difference into
`maxY`, translate all platforms down, drop those below `CANVAS_HEIGHT + 50`,
regenerate up to `PLATFORM_COUNT`, and recompute
`score = Math.floor(maxY / 10)`. -/
def scrollStep (r : ℕ → ℚ) (s : GameState) : GameState :=
  if s.player.y < CANVAS_HEIGHT / 2 then
    let scrollAmount := CANVAS_HEIGHT / 2 - s.player.y
    let maxY1 := s.maxY + scrollAmount
    let moved := s.platforms.map (fun q => { q with y := q.y + scrollAmount })
    let kept := moved.filter (fun q => q.y < CANVAS_HEIGHT + 50)
    let rg := regenPlatforms r PLATFORM_COUNT s.seed kept
    { s with
      player := { s.player with y := CANVAS_HEIGHT / 2 }
      platforms := rg.1
      maxY := maxY1
      score := ⌊maxY1 / 10⌋
      seed := rg.2 }
  else s

/-- Terminal check (page.tsx lines 181-191): falling past the bottom edge
ends the run.  (The final score and leaderboard submission side effects are
outside the simulation state.) -/
def gameOverStep (s : GameState) : GameState :=
  if s.player.y > CANVAS_HEIGHT then { s with phase := Phase.gameover } else s

/-- One execution of `gameLoop` (page.tsx lines 120-253), minus rendering.
The loop body only runs while the phase is `playing` (the effect installing
it returns early otherwise, page.tsx line 111). -/
def tick (r : ℕ → ℚ) (s : GameState) : GameState :=
  if s.phase = Phase.playing then
    gameOverStep (scrollStep r (collideStep (physicsStep (moveStep s))))
  else s

/-- Runs `n` consecutive ticks. -/
def tickN (r : ℕ → ℚ) : ℕ → GameState → GameState
  | 0, s => s
  | n + 1, s => tickN r n (tick r s)

/-- Source: `generatePlatforms(startY, count)` (page.tsx lines 68-78): platform `i`
gets a random `x` and `y = startY - i * (CANVAS_HEIGHT / PLATFORM_COUNT)`.
`i` is the loop index, `count` the number still to create. -/
def generatePlatforms (r : ℕ → ℚ) (startY : ℚ) (seed : ℕ) : ℕ → ℕ → List Platform
  | _, 0 => []
  | i, n + 1 =>
    ⟨r (seed + i) * (CANVAS_WIDTH - PLATFORM_WIDTH),
      startY - (i : ℚ) * (CANVAS_HEIGHT / (PLATFORM_COUNT : ℚ)), PLATFORM_WIDTH⟩ ::
      generatePlatforms r startY seed (i + 1) n

/-- Source: `startGame` (page.tsx lines 80-108): called by both the start screen and
the game-over screen, regardless of the current state, so it models both the
`start → playing` and `gameover → playing` transitions.  Player spawns at
`(CANVAS_WIDTH/2 - 20, CANVAS_HEIGHT - 100)` with `vy = JUMP_VELOCITY`; the
first platform is deterministically centered beneath the spawn; the
remaining `PLATFORM_COUNT - 1` are generated from `CANVAS_HEIGHT - 150`
upward; `maxY` and the score are reset to 0. -/
def startGame (r : ℕ → ℚ) (seed : ℕ) : GameState where
  player := { x := CANVAS_WIDTH / 2 - 20, y := CANVAS_HEIGHT - 100,
              vy := JUMP_VELOCITY, width := 40, height := 40 }
  platforms :=
    ⟨CANVAS_WIDTH / 2 - PLATFORM_WIDTH / 2, CANVAS_HEIGHT - 50, PLATFORM_WIDTH⟩ ::
      generatePlatforms r (CANVAS_HEIGHT - 150) seed 0 (PLATFORM_COUNT - 1)
  keyLeft := false
  keyRight := false
  maxY := 0
  score := 0
  phase := Phase.playing
  seed := seed + (PLATFORM_COUNT - 1)

end Game

/-! ## Leaderboard lemmas -/

lemma sortByScoreDesc_perm (l : List LeaderboardEntry) :
    List.Perm (sortByScoreDesc l) l :=
  List.perm_insertionSort _ l

lemma sortByScoreDesc_sorted (l : List LeaderboardEntry) :
    List.Sorted scoreGe (sortByScoreDesc l) :=
  List.sorted_insertionSort _ l

lemma length_sortByScoreDesc (l : List LeaderboardEntry) :
    (sortByScoreDesc l).length = l.length :=
  List.length_insertionSort _ l

lemma findLowerIdx_some {a : String} {s : List LeaderboardEntry} {i : ℕ}
    {x : LeaderboardEntry} (h : findLowerIdx a s = some (i, x)) :
    s.get? i = some x ∧ lowerKey x.address = lowerKey a := by
  induction s generalizing i with
  | nil => simp [findLowerIdx] at h
  | cons y ys ih =>
    rw [findLowerIdx] at h
    split at h
    · rename_i heq
      obtain ⟨rfl, rfl⟩ : i = 0 ∧ y = x := by
        simpa [eq_comm] using h
      exact ⟨rfl, heq⟩
    · obtain ⟨⟨j, z⟩, hj, hx⟩ := Option.map_eq_some'.mp h
      obtain ⟨rfl, rfl⟩ : i = j + 1 ∧ z = x := by
        simpa [eq_comm] using hx
      obtain ⟨h1, h2⟩ := ih hj
      exact ⟨h1, h2⟩

lemma findLowerIdx_none {a : String} {s : List LeaderboardEntry}
    (h : findLowerIdx a s = none) :
    ∀ x ∈ s, lowerKey x.address ≠ lowerKey a := by
  induction s with
  | nil => simp
  | cons y ys ih =>
    rw [findLowerIdx] at h
    split at h
    · simp at h
    · rename_i hne
      rcases Option.map_eq_none'.mp h with h'
      intro x hx
      rcases List.mem_cons.mp hx with rfl | hx
      · exact hne
      · exact ih h' x hx

/-! ## Claim theorems: leaderboard -/

/-- C1: for an identity with a stored entry, submitting a score less than or
equal to the stored score leaves the store unchanged and is rejected
(`newHighScore: false`), while a strictly greater score replaces the stored
entry in place and is accepted (`newHighScore: true`). -/
theorem leaderboard_upsert_monotone (store : List LeaderboardEntry)
    (e : LeaderboardEntry) (i : ℕ) (x : LeaderboardEntry)
    (h : findLowerIdx e.address store = some (i, x)) :
    (e.score ≤ x.score → saveToInMemoryLeaderboard store e = (false, store)) ∧
    (x.score < e.score → saveToInMemoryLeaderboard store e = (true, store.set i e)) := by
  refine ⟨fun hle => ?_, fun hlt => ?_⟩ <;> simp only [saveToInMemoryLeaderboard, h]
  · rw [if_neg (by omega)]
  · rw [if_pos (by omega)]

/-- Witness for C1: the spec's concrete scenarios — `(A, 50)` then `(A, 30)`
leaves 50 stored and is rejected; `(A, 50)` then `(A, 80)` stores 80 and is
accepted. -/
theorem leaderboard_upsert_monotone_scenario :
    saveToInMemoryLeaderboard [⟨"A", 50, 0⟩] ⟨"A", 30, 1⟩ = (false, [⟨"A", 50, 0⟩]) ∧
    saveToInMemoryLeaderboard [⟨"A", 50, 0⟩] ⟨"A", 80, 1⟩ = (true, [⟨"A", 80, 1⟩]) := by
  refine ⟨(leaderboard_upsert_monotone _ _ 0 ⟨"A", 50, 0⟩ (by decide)).1 (by decide), ?_⟩
  have h2 := (leaderboard_upsert_monotone [⟨"A", 50, 0⟩] ⟨"A", 80, 1⟩ 0 ⟨"A", 50, 0⟩
    (by decide)).2 (by decide)
  simpa using h2

/-- C2: a valid submission (non-empty identity, non-negative score) for an
identity with no stored entry is accepted with `newHighScore: true`, and —
whenever the store is below the capacity ceiling — the new entry
`{identity, score, recordedAt: now}` is appended to the store. -/
theorem leaderboard_fresh_insert (store : List LeaderboardEntry) (a : String)
    (sc : ℤ) (now : ℕ) (ha : a ≠ "") (_hsc : 0 ≤ sc)
    (hfresh : findLowerIdx a store = none) :
    (postLeaderboard store a (some sc) now).1 = .saved true ∧
    (store.length < MAX_ENTRIES →
      (postLeaderboard store a (some sc) now).2 = store ++ [⟨a, sc, now⟩]) := by
  simp only [postLeaderboard, saveToInMemoryLeaderboard]
  rw [if_neg ha]
  simp only [hfresh]
  constructor
  · split <;> rfl
  · intro hlt
    rw [if_neg (by simp; omega)]

/-- Witness for C2: a first submission with score 0 is accepted and stored. -/
theorem leaderboard_fresh_insert_zero_score :
    (postLeaderboard [] "B" (some 0) 3).1 = .saved true ∧
    (postLeaderboard [] "B" (some 0) 3).2 = [⟨"B", 0, 3⟩] := by
  have h := leaderboard_fresh_insert [] "B" 0 3 (by decide) (by decide) (by decide)
  exact ⟨h.1, by simpa using h.2 (by decide)⟩

/-- Counterexample to C3 as stated: a submission with a negative score is
NOT rejected with 400 — the validation only checks `!address` and
`typeof score !== 'number'`, so `("A", -5)` passes, is accepted, and changes
the store. -/
theorem leaderboard_negative_score_accepted :
    postLeaderboard [] "A" (some (-5)) 0 = (.saved true, [⟨"A", -5, 0⟩]) := by
  decide

/-- C3 amended: the submit operation returns the 400 `Invalid data` response
exactly when the identity is empty/missing or the score is not a number
(negative numeric scores pass validation); the 400 path leaves storage
unchanged. -/
theorem leaderboard_invalid_input_iff (store : List LeaderboardEntry)
    (a : String) (sc : Option ℤ) (now : ℕ) :
    ((postLeaderboard store a sc now).1 = .invalidData ↔ (a = "" ∨ sc = none)) ∧
    ((postLeaderboard store a sc now).1 = .invalidData →
      (postLeaderboard store a sc now).2 = store) := by
  unfold postLeaderboard
  cases sc with
  | none => simp
  | some v =>
    by_cases ha : a = "" <;> simp [ha]

/-- Witness for C3 (amended): the empty identity is rejected and the store
untouched. -/
theorem leaderboard_invalid_input_empty :
    (postLeaderboard [] "" (some 3) 0).1 = .invalidData ∧
    (postLeaderboard [] "" (some 3) 0).2 = [] := by
  have h := leaderboard_invalid_input_iff [] "" (some 3) 0
  exact ⟨h.1.mpr (Or.inl rfl), h.2 (h.1.mpr (Or.inl rfl))⟩

/-- The case-insensitive identity keys of a store. -/
def lowerAddrs (l : List LeaderboardEntry) : List (List Char) :=
  l.map (fun x => lowerKey x.address)

lemma set_get_self {α : Type} :
    ∀ (l : List α) (i : ℕ) (v : α), l.get? i = some v → l.set i v = l
  | [], i, v, h => by simp at h
  | x :: xs, 0, v, h => by
    simp only [List.get?] at h
    injection h with h
    rw [h]
    rfl
  | x :: xs, i + 1, v, h => by
    simp only [List.get?] at h
    simp [set_get_self xs i v h]

lemma lowerAddrs_set (store : List LeaderboardEntry) (i : ℕ) (e : LeaderboardEntry) :
    lowerAddrs (store.set i e) = (lowerAddrs store).set i (lowerKey e.address) := by
  induction store generalizing i with
  | nil => simp [lowerAddrs]
  | cons y ys ih =>
    cases i with
    | zero => simp [lowerAddrs]
    | succ j => simpa [lowerAddrs, List.set] using ih j

/-- One `saveToInMemoryLeaderboard` call preserves "at most one entry per
case-insensitive identity". -/
lemma save_preserves_nodup (store : List LeaderboardEntry) (e : LeaderboardEntry)
    (h : (lowerAddrs store).Nodup) :
    (lowerAddrs (saveToInMemoryLeaderboard store e).2).Nodup := by
  unfold saveToInMemoryLeaderboard
  cases hf : findLowerIdx e.address store with
  | some p =>
    obtain ⟨i, x⟩ := p
    obtain ⟨hget, hlow⟩ := findLowerIdx_some hf
    simp only
    split
    · have hsame : lowerAddrs (store.set i e) = lowerAddrs store := by
        rw [lowerAddrs_set]
        apply set_get_self
        rw [lowerAddrs, List.get?_map, hget, Option.map_some', hlow]
      simpa [hsame] using h
    · exact h
  | none =>
    have hfreshaddr : lowerKey e.address ∉ lowerAddrs store := by
      intro hm
      obtain ⟨y, hy, hky⟩ := List.mem_map.mp hm
      exact findLowerIdx_none hf y hy hky
    have hpushed : (lowerAddrs (store ++ [e])).Nodup := by
      rw [lowerAddrs, List.map_append]
      simp only [List.nodup_append]
      refine ⟨h, by simp, ?_⟩
      intro k hk
      simp only [List.map_cons, List.map_nil, List.mem_singleton]
      intro hke
      exact hfreshaddr (hke ▸ hk)
    simp only
    split
    · have hperm : List.Perm (lowerAddrs (sortByScoreDesc (store ++ [e])))
          (lowerAddrs (store ++ [e])) :=
        (sortByScoreDesc_perm (store ++ [e])).map _
      have hsortnd : (lowerAddrs (sortByScoreDesc (store ++ [e]))).Nodup :=
        (hperm.nodup_iff).mpr hpushed
      have hsub : List.Sublist
          (lowerAddrs ((sortByScoreDesc (store ++ [e])).take MAX_ENTRIES))
          (lowerAddrs (sortByScoreDesc (store ++ [e]))) :=
        (List.take_sublist _ _).map _
      exact hsortnd.sublist hsub
    · exact hpushed

/-- C4: identity uniqueness is case-insensitive.  Starting from any store
with at most one entry per case-insensitive identity, any sequence of
submissions preserves that invariant; concretely, `(0xABC, 10)` then
`(0xabc, 20)` yields the single entry with score 20. -/
theorem leaderboard_case_insensitive_unique :
    (∀ (store : List LeaderboardEntry) (es : List LeaderboardEntry),
        (lowerAddrs store).Nodup →
        (lowerAddrs (es.foldl (fun s e => (saveToInMemoryLeaderboard s e).2) store)).Nodup) ∧
    saveToInMemoryLeaderboard [⟨"0xABC", 10, 0⟩] ⟨"0xabc", 20, 1⟩ =
      (true, [⟨"0xabc", 20, 1⟩]) := by
  constructor
  · intro store es
    induction es generalizing store with
    | nil => exact fun h => h
    | cons e es ih =>
      intro h
      exact ih _ (save_preserves_nodup store e h)
  · decide

/-- Witness for C4: the invariant applied to the spec's concrete
case-insensitive submission sequence from the empty store. -/
theorem leaderboard_case_insensitive_unique_example :
    (lowerAddrs (([⟨"0xABC", 10, 0⟩, ⟨"0xabc", 20, 1⟩] :
        List LeaderboardEntry).foldl
      (fun s e => (saveToInMemoryLeaderboard s e).2) [])).Nodup :=
  leaderboard_case_insensitive_unique.1 [] [⟨"0xABC", 10, 0⟩, ⟨"0xabc", 20, 1⟩]
    (by decide)

/-- C5: the top-10 query returns at most 10 entries, sorted by descending
score, and the KV read path skips malformed members instead of failing: a
malformed member anywhere in the raw range contributes nothing while the
rest is still parsed. -/
theorem leaderboard_top_bounded_sorted_skips :
    (∀ store : List LeaderboardEntry,
        (getInMemoryLeaderboard store).length ≤ 10 ∧
        List.Sorted scoreGe (getInMemoryLeaderboard store)) ∧
    (∀ (xs ys : List (Option RawMember × ℤ)) (sc : ℤ),
        parseKvEntries (xs ++ (none, sc) :: ys) =
          parseKvEntries xs ++ parseKvEntries ys) := by
  constructor
  · intro store
    refine ⟨?_, ?_⟩
    · rw [getInMemoryLeaderboard, List.length_take]
      exact min_le_left _ _
    · exact List.Pairwise.sublist (List.take_sublist _ _) (sortByScoreDesc_sorted store)
  · intro xs ys sc
    induction xs with
    | nil => simp [parseKvEntries]
    | cons hd tl ih =>
      obtain ⟨om, s⟩ := hd
      cases om <;> simp [parseKvEntries, ih]

/-- The `i`-th distinct test identity, with score `i + 1` (so identity
`u0` carries the lowest score). -/
def mkEntry (i : ℕ) : LeaderboardEntry :=
  ⟨"u" ++ toString i, (i : ℤ) + 1, 0⟩

/-- Submit a sequence of entries to the in-memory store, recording whether
every submission was accepted. -/
def submitSeq (es : List LeaderboardEntry) : List LeaderboardEntry × Bool :=
  es.foldl (fun acc e =>
    let r := saveToInMemoryLeaderboard acc.1 e
    (r.2, acc.2 && r.1)) ([], true)

/-- The store after submitting 101 distinct identities, paired with the
all-accepted flag. -/
def hundredOne : List LeaderboardEntry × Bool :=
  submitSeq ((List.range 101).map mkEntry)

set_option maxRecDepth 100000 in
/-- C6: a submit never leaves the store above the 100-entry ceiling, and
submitting 101 distinct identities from the empty store has every submission
accepted, leaves exactly 100 entries, and evicts exactly the lowest-scored
entry (`mkEntry 0`, whose score is minimal among all submitted). -/
theorem leaderboard_capacity :
    (∀ (store : List LeaderboardEntry) (e : LeaderboardEntry),
        store.length ≤ MAX_ENTRIES →
        ((saveToInMemoryLeaderboard store e).2).length ≤ MAX_ENTRIES) ∧
    ((∀ i : ℕ, (mkEntry 0).score ≤ (mkEntry i).score) ∧
      hundredOne.2 = true ∧ hundredOne.1.length = 100 ∧ mkEntry 0 ∉ hundredOne.1) := by
  constructor
  · intro store e hle
    unfold saveToInMemoryLeaderboard
    cases hf : findLowerIdx e.address store with
    | some p =>
      obtain ⟨i, x⟩ := p
      simp only
      split
      · simpa using hle
      · exact hle
    | none =>
      simp only
      split
      · rename_i hgt
        simp only [List.length_take, length_sortByScoreDesc]
        exact min_le_left _ _
      · rename_i hgt
        show (store ++ [e]).length ≤ MAX_ENTRIES
        omega
  · refine ⟨fun i => ?_, ?_⟩
    · simp only [mkEntry]
      omega
    · decide

/-- Witness for C6's capacity bound at a concrete store. -/
theorem leaderboard_capacity_example :
    ([⟨"A", 1, 0⟩] : List LeaderboardEntry).length ≤ MAX_ENTRIES ∧
    ((saveToInMemoryLeaderboard [⟨"A", 1, 0⟩] ⟨"B", 2, 0⟩).2).length ≤ MAX_ENTRIES :=
  ⟨by decide, leaderboard_capacity.1 [⟨"A", 1, 0⟩] ⟨"B", 2, 0⟩ (by decide)⟩

/-- A store already at the 100-entry ceiling, every score at least 1. -/
def fullStore : List LeaderboardEntry :=
  (List.range 100).map mkEntry

set_option maxRecDepth 100000 in
/-- C10: a brand-new identity whose score is the lowest in a full store is
reported accepted (`newHighScore: true`) by the POST handler, yet the
capacity trim immediately evicts it: the submitted entry is absent from the
store afterwards, which still holds 100 entries. -/
theorem leaderboard_accept_without_presence :
    (postLeaderboard fullStore "zz" (some 0) 5).1 = .saved true ∧
    (postLeaderboard fullStore "zz" (some 0) 5).2.length = 100 ∧
    (⟨"zz", 0, 5⟩ : LeaderboardEntry) ∉ (postLeaderboard fullStore "zz" (some 0) 5).2 := by
  decide

/-! ## Game engine lemmas and claim theorems -/

namespace Game

lemma maxY_moveStep (s : GameState) : (moveStep s).maxY = s.maxY := rfl

lemma maxY_physicsStep (s : GameState) : (physicsStep s).maxY = s.maxY := rfl

lemma maxY_collideStep (s : GameState) : (collideStep s).maxY = s.maxY := by
  unfold collideStep
  split <;> rfl

lemma maxY_gameOverStep (s : GameState) : (gameOverStep s).maxY = s.maxY := by
  unfold gameOverStep
  split <;> rfl

lemma maxY_scrollStep (r : ℕ → ℚ) (s : GameState) : s.maxY ≤ (scrollStep r s).maxY := by
  unfold scrollStep
  split
  · rename_i hy
    show s.maxY ≤ s.maxY + (CANVAS_HEIGHT / 2 - s.player.y)
    linarith
  · exact le_refl _

lemma maxY_tick (r : ℕ → ℚ) (s : GameState) : s.maxY ≤ (tick r s).maxY := by
  unfold tick
  split
  · rw [maxY_gameOverStep]
    calc s.maxY = (physicsStep (moveStep s)).maxY := by
          rw [maxY_physicsStep, maxY_moveStep]
      _ = (collideStep (physicsStep (moveStep s))).maxY := (maxY_collideStep _).symm
      _ ≤ _ := maxY_scrollStep r _
  · exact le_refl _

end Game

/-- C7: the scroll accumulator `maxY` never decreases: a single tick can
only grow it, hence over any sequence of ticks within a run it is
monotonically non-decreasing. -/
theorem game_maxY_monotone :
    (∀ (r : ℕ → ℚ) (s : Game.GameState), s.maxY ≤ (Game.tick r s).maxY) ∧
    (∀ (r : ℕ → ℚ) (n : ℕ) (s : Game.GameState), s.maxY ≤ (Game.tickN r n s).maxY) := by
  refine ⟨Game.maxY_tick, fun r n => ?_⟩
  induction n with
  | zero => exact fun s => le_refl _
  | succ m ih =>
    intro s
    exact le_trans (Game.maxY_tick r s) (ih (Game.tick r s))

namespace Game

lemma length_generatePlatforms (r : ℕ → ℚ) (startY : ℚ) (seed : ℕ) :
    ∀ (n i : ℕ), (generatePlatforms r startY seed i n).length = n := by
  intro n
  induction n with
  | zero => intro i; rfl
  | succ m ih =>
    intro i
    simp [generatePlatforms, ih]

end Game

/-- C8: every (re)start — the `start → playing` and `gameover → playing`
transitions both invoke `startGame` — resets the player body to the fixed
spawn `(180, 500)` with the jump velocity `-15`, rebuilds exactly
`PLATFORM_COUNT = 7` platforms with the first one deterministically centered
beneath the spawn at `(165, 550)`, resets `maxY` to 0, resets the score to
0, and enters the `playing` phase. -/
theorem game_start_resets (r : ℕ → ℚ) (seed : ℕ) :
    (Game.startGame r seed).player =
      ⟨180, 500, -15, 40, 40⟩ ∧
    (Game.startGame r seed).platforms.length = Game.PLATFORM_COUNT ∧
    (Game.startGame r seed).platforms.head? = some ⟨165, 550, 70⟩ ∧
    (Game.startGame r seed).maxY = 0 ∧
    (Game.startGame r seed).score = 0 ∧
    (Game.startGame r seed).phase = Game.Phase.playing := by
  refine ⟨?_, ?_, ?_, rfl, rfl, rfl⟩
  · simp only [Game.startGame]
    norm_num [Game.Player.mk.injEq, Game.CANVAS_WIDTH, Game.CANVAS_HEIGHT,
      Game.JUMP_VELOCITY]
  · simp only [Game.startGame, List.length_cons, Game.length_generatePlatforms]
    rfl
  · simp only [Game.startGame, List.head?]
    norm_num [Game.Platform.mk.injEq, Game.CANVAS_WIDTH, Game.CANVAS_HEIGHT,
      Game.PLATFORM_WIDTH]

/-- C9: collision resolution runs only while the body moves downward.  If
the post-gravity velocity is still non-positive (and the body stays below
the scroll midpoint), the tick is pure gravity integration: velocity becomes
`vy + GRAVITY`, the position `y + (vy + GRAVITY)`, and no platform snap,
platform change, or scroll happens. -/
theorem game_collision_only_falling (r : ℕ → ℚ) (s : Game.GameState)
    (hp : s.phase = Game.Phase.playing)
    (hvy : s.player.vy + Game.GRAVITY ≤ 0)
    (hns : ¬ s.player.y + (s.player.vy + Game.GRAVITY) < Game.CANVAS_HEIGHT / 2) :
    (Game.tick r s).player.vy = s.player.vy + Game.GRAVITY ∧
    (Game.tick r s).player.y = s.player.y + (s.player.vy + Game.GRAVITY) ∧
    (Game.tick r s).platforms = s.platforms ∧
    (Game.tick r s).maxY = s.maxY := by
  unfold Game.tick
  rw [if_pos hp]
  have hmove : (Game.moveStep s).player.vy = s.player.vy ∧
      (Game.moveStep s).player.y = s.player.y ∧
      (Game.moveStep s).platforms = s.platforms ∧
      (Game.moveStep s).maxY = s.maxY := ⟨rfl, rfl, rfl, rfl⟩
  set s1 := Game.moveStep s with hs1
  have hphys : (Game.physicsStep s1).player.vy = s.player.vy + Game.GRAVITY ∧
      (Game.physicsStep s1).player.y = s.player.y + (s.player.vy + Game.GRAVITY) ∧
      (Game.physicsStep s1).platforms = s.platforms ∧
      (Game.physicsStep s1).maxY = s.maxY := by
    refine ⟨?_, ?_, hmove.2.2.1, hmove.2.2.2⟩
    · show s1.player.vy + Game.GRAVITY = s.player.vy + Game.GRAVITY
      rw [hmove.1]
    · show s1.player.y + (s1.player.vy + Game.GRAVITY) =
        s.player.y + (s.player.vy + Game.GRAVITY)
      rw [hmove.1, hmove.2.1]
  set s2 := Game.physicsStep s1 with hs2
  have hcoll : Game.collideStep s2 = s2 := by
    unfold Game.collideStep
    rw [if_neg]
    rw [hphys.1]
    exact not_lt.mpr hvy
  rw [hcoll]
  have hscroll : Game.scrollStep r s2 = s2 := by
    unfold Game.scrollStep
    rw [if_neg]
    rw [hphys.2.1]
    exact hns
  rw [hscroll]
  unfold Game.gameOverStep
  split
  · exact ⟨hphys.1, hphys.2.1, hphys.2.2.1, hphys.2.2.2⟩
  · exact ⟨hphys.1, hphys.2.1, hphys.2.2.1, hphys.2.2.2⟩

/-- The spec's concrete collision scenario: body at `(180, 500)` with
velocity `-15`, a single platform at `(165, 550)` of width 70. -/
def c9State : Game.GameState where
  player := ⟨180, 500, -15, 40, 40⟩
  platforms := [⟨165, 550, 70⟩]
  keyLeft := false
  keyRight := false
  maxY := 0
  score := 0
  phase := Game.Phase.playing
  seed := 0

/-- Witness for C9: in the concrete scenario one tick with gravity `0.5`
yields velocity `-14.5` and position `485.5` with the platform untouched —
no snap. -/
theorem game_collision_only_falling_scenario :
    (Game.tick (fun _ => 0) c9State).player.vy = -29 / 2 ∧
    (Game.tick (fun _ => 0) c9State).player.y = 971 / 2 ∧
    (Game.tick (fun _ => 0) c9State).platforms = [⟨165, 550, 70⟩] := by
  have h := game_collision_only_falling (fun _ => 0) c9State rfl
    (by norm_num [c9State, Game.GRAVITY])
    (by norm_num [c9State, Game.GRAVITY, Game.CANVAS_HEIGHT])
  refine ⟨?_, ?_, ?_⟩
  · rw [h.1]
    norm_num [c9State, Game.GRAVITY]
  · rw [h.2.1]
    norm_num [c9State, Game.GRAVITY]
  · rw [h.2.2.1]
    rfl

end SomniaJump
